import Mathlib

/-!
Verification development for the robot-test distribution system.

The SQLite tables are embedded as Lean lists of rows:
  * table `test_cases`      -> `List TestCase`
  * table `test_executions` -> `List Execution`
and the whole database file as `DB`.  SQL statements are embedded by their
standard list semantics: `UPDATE ... WHERE c` is a `map` rewriting every row
satisfying `c`, `INSERT` appends a row, `DELETE FROM t` empties the list,
`SELECT ... WHERE c ... LIMIT 1` is a first/minimal match, and `COUNT` is a
`filter`-`length`.  Statuses are plain strings, exactly as in the database
(the server never constrains them).  Timestamps are naturals.
-/

/-- One row of the `test_cases` table (columns used by the server:
`id, test_name, suite_name, file_path, status`; the `parsed_date` column is
written by the ingestion script and read by nobody, so it is omitted). -/
structure TestCase where
  id : Nat
  test_name : String
  suite_name : String
  file_path : String
  status : String
deriving DecidableEq, Repr

/-- One row of the `test_executions` table. -/
structure Execution where
  execution_id : String
  test_id : Nat
  node_id : String
  status : String
  start_time : Nat
  end_time : Option Nat
  result : Option String
deriving DecidableEq, Repr

/-- The database `robot_tests.db`. -/
structure DB where
  test_cases : List TestCase
  test_executions : List Execution
deriving DecidableEq, Repr

/-- Row with the least `id` in a list (first one wins on ties), embedding
`ORDER BY id LIMIT 1`. -/
def minById : List TestCase → Option TestCase
  | [] => none
  | t :: ts =>
    match minById ts with
    | none => some t
    | some u => if t.id ≤ u.id then some t else some u

/-- The `SELECT id, test_name, suite_name, file_path FROM test_cases WHERE
status = "pending" ORDER BY id LIMIT 1` of `server.py` (`next_test`,
lines 46-54). -/
def selectPending (cases : List TestCase) : Option TestCase :=
  minById (cases.filter (fun t => t.status == "pending"))

/-- Payload of a successful `/api/next_test` response (server.py lines 80-86);
also the test data the worker receives. -/
structure TestData where
  execution_id : String
  test_id : Nat
  test_name : String
  suite_name : String
  file_path : String
deriving DecidableEq, Repr

/-- Result of `GET /api/next_test`. -/
inductive NextTestResult
  | assigned (d : TestData)
  | noTests
deriving DecidableEq, Repr

/-- HTTP status code attached to a `next_test` response
(200 at line 89, 404 at line 58 of server.py). -/
def nextTestHttpCode : NextTestResult → Nat
  | .assigned _ => 200
  | .noTests => 404

/-- The write half of `next_test` (server.py lines 62-77): `UPDATE test_cases
SET status = "running" WHERE id = ?` followed by `INSERT INTO test_executions
(execution_id, test_id, node_id, status, start_time) VALUES (?,?,?,
"running",?)` and `COMMIT`. -/
def markRunningAndRecord (db : DB) (test_id : Nat) (execution_id node_id : String)
    (now : Nat) : DB :=
  { test_cases := db.test_cases.map
      (fun t => if t.id == test_id then { t with status := "running" } else t),
    test_executions := db.test_executions ++
      [⟨execution_id, test_id, node_id, "running", now, none, none⟩] }

/-- Handler of `GET /api/next_test` (`next_test`, server.py lines 34-89), run as
one uninterrupted unit: select the lowest-id pending test, else 404; mark it
running and insert a running execution record.  The fresh uuid and the clock
reading are passed in as `execution_id` and `now`. -/
def next_test (db : DB) (node_id execution_id : String) (now : Nat) :
    DB × NextTestResult :=
  match selectPending db.test_cases with
  | none => (db, .noTests)
  | some t =>
      (markRunningAndRecord db t.id execution_id node_id now,
       .assigned ⟨execution_id, t.id, t.test_name, t.suite_name, t.file_path⟩)

/-- Result of `POST /api/update_test`.  The 400 branch for a request body
missing `execution_id` or `status` is outside this embedding, whose arguments
always carry both fields. -/
inductive UpdateResult
  | notFound
  | ok (test_id : Nat)
deriving DecidableEq, Repr

/-- HTTP status code attached to an `update_test` response
(404 at line 115, 200 at line 142 of server.py). -/
def updateHttpCode : UpdateResult → Nat
  | .notFound => 404
  | .ok _ => 200

/-- Handler of `POST /api/update_test` (`update_test`, server.py lines 91-142):
look up `test_id` by `execution_id`; if no row, close and answer 404 with no
write; otherwise rewrite the matching execution rows (status, end_time,
result) and the matching test_cases rows (status), verbatim from the request,
and answer 200.  The read of `test_name` for logging (lines 134-136) has no
effect on the store. -/
def update_test (db : DB) (execution_id status : String) (result : Option String)
    (now : Nat) : DB × UpdateResult :=
  match db.test_executions.find? (fun e => e.execution_id == execution_id) with
  | none => (db, .notFound)
  | some row =>
      ({ test_cases := db.test_cases.map
           (fun t => if t.id == row.test_id then { t with status := status } else t),
         test_executions := db.test_executions.map
           (fun e => if e.execution_id == execution_id then
              { e with status := status, end_time := some now, result := result }
            else e) },
       .ok row.test_id)

/-- Handler of `POST /api/reset` (`reset_tests`, server.py lines 197-212), and
equally `reset_test_statuses` of k8s_test_distributor.py lines 61-66: the
single statement `UPDATE test_cases SET status = "pending"`.  Returns the new
database and the reported rowcount (every row is touched). -/
def reset_tests (db : DB) : DB × Nat :=
  ({ db with test_cases := db.test_cases.map (fun t => { t with status := "pending" }) },
   db.test_cases.length)

/-- Number of `test_cases` rows having a given status
(`SELECT status, COUNT(*) ... GROUP BY status`, read off at one status). -/
def countStatus (db : DB) (s : String) : Nat :=
  (db.test_cases.filter (fun t => t.status == s)).length

/-- Snapshot produced by `get_test_status` of merger.py. -/
structure StatusSummary where
  total : Nat
  finished : Nat
  passed : Nat
  failed : Nat
  all_completed : Bool
deriving DecidableEq, Repr

/-- Embedding of `get_test_status` (merger.py lines 25-58): `total` counts `test_cases`
rows, `finished`, `passed`, `failed` count `test_executions` rows by status,
and `all_completed` is the comparison `total_tests == finished_tests`. -/
def get_test_status (db : DB) : StatusSummary :=
  let total := db.test_cases.length
  let fin := (db.test_executions.filter
    (fun e => e.status == "completed" || e.status == "failed")).length
  let pass := (db.test_executions.filter (fun e => e.status == "completed")).length
  let fail := (db.test_executions.filter (fun e => e.status == "failed")).length
  ⟨total, fin, pass, fail, total == fin⟩

/-- Embedding of `monitor_and_merge` (merger.py lines 160-195) over a finite list of
successive fresh database snapshots, one per polling tick: while the snapshot
does not satisfy `all_completed`, sleep and poll again; at the first snapshot
that does, call `merge_test_results` once and leave the loop (on merge failure
the process exits immediately, so the call count is the same).  The value is
the number of merge invocations performed over those ticks. -/
def monitorMergeCount : List DB → Nat
  | [] => 0
  | db :: rest =>
      if (get_test_status db).all_completed then 1 else monitorMergeCount rest

/-- One row produced by the ingestion parser (parse_robot_tests.py): a test
name with its file path and suite name. -/
structure ParsedTest where
  test_name : String
  file_path : String
  suite_name : String
deriving DecidableEq, Repr

/-- The insertion loop of `store_in_database` (parse_robot_tests.py lines
90-95): one `INSERT INTO test_cases (test_name, file_path, suite_name,
parsed_date)` per parsed test.  SQLite assigns consecutive AUTOINCREMENT ids
starting at `i`, and the `status` column (added with `DEFAULT "pending"`)
makes every inserted row pending. -/
def insertAll (db : DB) : Nat → List ParsedTest → DB
  | _, [] => db
  | i, p :: ps =>
      insertAll
        { db with test_cases :=
            db.test_cases ++ [⟨i, p.test_name, p.suite_name, p.file_path, "pending"⟩] }
        (i + 1) ps

/-- Embedding of `store_in_database` (parse_robot_tests.py lines 83-98): `DELETE FROM
test_cases`, then insert every parsed test.  `firstId` is the next value of
the AUTOINCREMENT sequence.  The `test_executions` table is not mentioned by
the function. -/
def store_in_database (db : DB) (tests : List ParsedTest) (firstId : Nat) : DB :=
  insertAll { db with test_cases := [] } firstId tests

/-- Rows that a catalog replacement starting at id `i` produces. -/
def builtRows : Nat → List ParsedTest → List TestCase
  | _, [] => []
  | i, p :: ps => ⟨i, p.test_name, p.suite_name, p.file_path, "pending"⟩ :: builtRows (i + 1) ps

/-- Number of `test_executions` rows that are Active (status `"running"`) for
a given `test_cases` id. -/
def runningExecsFor (db : DB) (tid : Nat) : Nat :=
  (db.test_executions.filter (fun e => e.test_id == tid && e.status == "running")).length

/-- Mutual-exclusion check: no test id has two simultaneously running
execution records. -/
def mutexOK (db : DB) : Bool :=
  db.test_executions.all (fun e => runningExecsFor db e.test_id ≤ 1)

/-- Companion invariant: a pending test has no running execution record
(claiming it may then create the first one). -/
def pendingUnclaimedOK (db : DB) : Bool :=
  db.test_cases.all (fun t => t.status != "pending" || runningExecsFor db t.id == 0)

/-- Some execution record is currently Active. -/
def anyActiveExecution (db : DB) : Bool :=
  db.test_executions.any (fun e => e.status == "running")

/-- Serialized claim traffic: each `(node_id, execution_id, now)` triple is
one `/api/next_test` request whose handler runs to completion before the
next starts. -/
def runClaims (db : DB) : List (String × String × Nat) → DB
  | [] => db
  | (nid, eid, now) :: rest => runClaims (next_test db nid eid now).1 rest

/-- Position of one `next_test` handler between the SQL statements it issues:
before its SELECT, between the SELECT and the write-and-commit group, or done
with its response. -/
inductive ClaimPhase
  | toSelect
  | toWrite (t : TestCase)
  | finished (r : NextTestResult)
deriving DecidableEq, Repr

/-- One in-flight `/api/next_test` caller: its `node_id`, the uuid its
handler will use, and the point its handler has reached. -/
structure Caller where
  node_id : String
  execution_id : String
  phase : ClaimPhase
deriving DecidableEq, Repr

/-- One scheduler step of a `next_test` handler.  SQLite serializes the
individual statements, but the handler issues its SELECT (server.py lines
46-54) and its UPDATE-INSERT-COMMIT group (lines 63-77) as separate units on
its own connection, with no transaction or lock spanning the gap between
them; a step is therefore one such unit. -/
def stepCaller (db : DB) (now : Nat) (c : Caller) : DB × Caller :=
  match c.phase with
  | .toSelect =>
      match selectPending db.test_cases with
      | none => (db, { c with phase := .finished .noTests })
      | some t => (db, { c with phase := .toWrite t })
  | .toWrite t =>
      let r : NextTestResult :=
        .assigned ⟨c.execution_id, t.id, t.test_name, t.suite_name, t.file_path⟩
      (markRunningAndRecord db t.id c.execution_id c.node_id now,
       { c with phase := .finished r })
  | .finished _ => (db, c)

/-- Shared database plus two concurrent `/api/next_test` callers. -/
structure TwoCallers where
  db : DB
  a : Caller
  b : Caller
deriving DecidableEq, Repr

/-- Step caller `a` (on `true`) or caller `b` (on `false`). -/
def stepTwo (s : TwoCallers) (who : Bool) (now : Nat) : TwoCallers :=
  if who then
    let p := stepCaller s.db now s.a
    ⟨p.1, p.2, s.b⟩
  else
    let p := stepCaller s.db now s.b
    ⟨p.1, s.a, p.2⟩

/-- Run a two-caller interleaving under a given schedule. -/
def runTwo (s : TwoCallers) (sched : List Bool) (now : Nat) : TwoCallers :=
  sched.foldl (fun st w => stepTwo st w now) s

/-- Response the coordinator gives to one attempt of the worker request
`GET /api/next_test?node_id=...` (worker.py `get_next_test`): a 200 with test
data, a 404 (no more tests), a 500 whose body contains "Database error", some
other status code, or a `requests.RequestException`. -/
inductive ApiResp
  | okResp (d : TestData)
  | noWork
  | dbError
  | otherError (code : Nat)
  | netExn
deriving DecidableEq, Repr

/-- Value `get_next_test` ends with: test data, the Python `None` (returned
both for 404 and for exhausted retries), or an exception escaping the
function (the non-500 error branch at worker.py line 56 calls `time.sleep`
without having run its own `import time`, so unless an earlier iteration of
the same call bound the local name `time`, an UnboundLocalError is raised,
which `except requests.RequestException` does not catch). -/
inductive FetchResult
  | got (d : TestData)
  | nothing
  | raised
deriving DecidableEq, Repr

/-- The retry loop of `get_next_test` (worker.py lines 30-70): `f i` is the
response to the i-th request.  Arguments: remaining loop iterations (starts
at `max_retries = 3`), current attempt index, current `retry_delay` (starts
at 1 and doubles after every sleep), whether the local name `time` is bound
in this call, and the sleeps performed so far (reversed).  Returns the
result together with the list of sleep durations. -/
def getNextTestGo (f : Nat → ApiResp) :
    Nat → Nat → Nat → Bool → List Nat → FetchResult × List Nat
  | 0, _, _, _, acc => (.nothing, acc.reverse)
  | r + 1, attempt, delay, timeBound, acc =>
    match f attempt with
    | .okResp d => (.got d, acc.reverse)
    | .noWork => (.nothing, acc.reverse)
    | .dbError =>
        getNextTestGo f r (attempt + 1) (delay * 2) true (delay :: acc)
    | .otherError _ =>
        match r with
        | 0 => (.nothing, acc.reverse)
        | _ + 1 =>
            if timeBound then
              getNextTestGo f r (attempt + 1) (delay * 2) timeBound (delay :: acc)
            else (.raised, acc.reverse)
    | .netExn =>
        match r with
        | 0 => (.nothing, acc.reverse)
        | _ + 1 =>
            getNextTestGo f r (attempt + 1) (delay * 2) true (delay :: acc)

/-- Embedding of `get_next_test` (worker.py lines 30-70) with `max_retries = 3` and
`retry_delay = 1`. -/
def get_next_test (f : Nat → ApiResp) : FetchResult × List Nat :=
  getNextTestGo f 3 0 1 false []

/-- How the worker process ends.  `done n` is the normal path: `main`
(worker.py lines 196-222) leaves its while-loop when `get_next_test` returns
`None`, prints "Test runner completed", and returns, after running `n` tests;
`caughtException n` is the path where an exception reached the top-level
`except` of `main` (lines 223-226), which prints a traceback and returns.
Both paths end the process with exit code 0. -/
inductive WorkerExit
  | done (tests_run : Nat)
  | caughtException (tests_run : Nat)
deriving DecidableEq, Repr

/-- The while-loop of `main` (worker.py lines 196-221) over a finite script:
element i of `fs` describes the coordinator responses seen by the i-th call
of `get_next_test`.  A `None` result breaks the loop (success); a received
test is run and reported and the loop continues; an escaping exception is
caught by the top-level handler of `main`. -/
def workerLoop : List (Nat → ApiResp) → Nat → WorkerExit
  | [], n => .done n
  | f :: rest, n =>
      match (get_next_test f).1 with
      | .nothing => .done n
      | .raised => .caughtException n
      | .got _ => workerLoop rest (n + 1)

/-! Concrete stores used to evaluate the operations at specific inputs. -/

/-- A catalog of one pending test. -/
def dbOnePending : DB :=
  ⟨[⟨1, "t1", "s1", "f1", "pending"⟩], []⟩

/-- Caller A of the interleaving scenario, about to issue its SELECT. -/
def callerA : Caller := ⟨"workerA", "exeA", .toSelect⟩

/-- Caller B of the interleaving scenario, about to issue its SELECT. -/
def callerB : Caller := ⟨"workerB", "exeB", .toSelect⟩

/-- An execution record that is already finalized: completed, end time and
result recorded. -/
def execFinalized : Execution :=
  ⟨"e1", 1, "workerA", "completed", 0, some 5, some "passed"⟩

/-- A store whose single attempt is already finalized: test 1 completed,
execution e1 completed with its end time and result recorded. -/
def dbFinalized : DB :=
  ⟨[⟨1, "t1", "s1", "f1", "completed"⟩], [execFinalized]⟩

/-- A store with one stale claim: test 1 was claimed at time 0 by an
execution that is still running with no report, observed at a much later
time. -/
def dbStale : DB :=
  ⟨[⟨1, "t1", "s1", "f1", "running"⟩],
   [⟨"eOld", 1, "workerA", "running", 0, none, none⟩]⟩

/-- A store where `get_test_status` reports completion although a test is
still pending: two tests, test 1 was executed twice (for example once before
and once after a reset), test 2 was never claimed.  The two finished
execution rows make `finished = 2 = total`. -/
def dbSkew : DB :=
  ⟨[⟨1, "t1", "s1", "f1", "completed"⟩, ⟨2, "t2", "s1", "f2", "pending"⟩],
   [⟨"e1", 1, "workerA", "failed", 0, some 3, some "flaky"⟩,
    ⟨"e2", 1, "workerA", "completed", 10, some 13, some "passed"⟩]⟩

/-- A coordinator that answers every request of one `get_next_test` call
with a transport exception. -/
def allNetExn : Nat → ApiResp := fun _ => .netExn

/-- A coordinator that immediately answers 404 (no work). -/
def immediateNoWork : Nat → ApiResp := fun _ => .noWork

/-- A catalog with two pending tests listed out of id order. -/
def dbTwoPending : DB :=
  ⟨[⟨2, "beta", "s1", "f2", "pending"⟩, ⟨1, "alpha", "s1", "f1", "pending"⟩], []⟩

/-- A catalog with no pending test. -/
def dbNonePending : DB :=
  ⟨[⟨1, "t1", "s1", "f1", "completed"⟩, ⟨2, "t2", "s1", "f2", "failed"⟩], []⟩

/-- A store holding an Active execution (test 1 is being run right now). -/
def dbActiveClaim : DB :=
  ⟨[⟨1, "t1", "s1", "f1", "running"⟩],
   [⟨"e1", 1, "workerA", "running", 0, none, none⟩]⟩

/-- A fresh catalog replacing the old one in the seeding scenario. -/
def newCatalog : List ParsedTest :=
  [⟨"new1", "g1", "s2"⟩, ⟨"new2", "g2", "s2"⟩]

/-! Helper lemmas. -/

theorem minById_mem {l : List TestCase} {t : TestCase} (h : minById l = some t) :
    t ∈ l := by
  induction l generalizing t with
  | nil => simp [minById] at h
  | cons a ts ih =>
      simp only [minById] at h
      cases hts : minById ts with
      | none =>
          rw [hts] at h
          cases h
          exact List.mem_cons_self _ _
      | some u =>
          rw [hts] at h
          by_cases hle : a.id ≤ u.id
          · simp only [if_pos hle] at h
            cases h
            exact List.mem_cons_self _ _
          · simp only [if_neg hle] at h
            cases h
            exact List.mem_cons_of_mem _ (ih hts)

theorem minById_eq_none {l : List TestCase} (h : minById l = none) : l = [] := by
  cases l with
  | nil => rfl
  | cons a ts =>
      exfalso
      simp only [minById] at h
      cases hts : minById ts with
      | none => rw [hts] at h; cases h
      | some u =>
          rw [hts] at h
          by_cases hle : a.id ≤ u.id
          · simp [if_pos hle] at h
          · simp [if_neg hle] at h

theorem minById_le {l : List TestCase} {t : TestCase} (h : minById l = some t) :
    ∀ u ∈ l, t.id ≤ u.id := by
  induction l generalizing t with
  | nil => simp [minById] at h
  | cons a ts ih =>
      intro u hu
      simp only [minById] at h
      cases hts : minById ts with
      | none =>
          rw [hts] at h
          cases h
          rcases List.mem_cons.mp hu with rfl | hu'
          · exact Nat.le_refl _
          · rw [minById_eq_none hts] at hu'
            cases hu'
      | some v =>
          rw [hts] at h
          by_cases hle : a.id ≤ v.id
          · simp only [if_pos hle] at h
            cases h
            rcases List.mem_cons.mp hu with rfl | hu'
            · exact Nat.le_refl _
            · exact Nat.le_trans hle (ih hts u hu')
          · simp only [if_neg hle] at h
            cases h
            rcases List.mem_cons.mp hu with rfl | hu'
            · exact Nat.le_of_lt (Nat.lt_of_not_le hle)
            · exact ih hts u hu'

theorem selectPending_mem {cs : List TestCase} {t : TestCase}
    (h : selectPending cs = some t) : t ∈ cs ∧ t.status = "pending" := by
  have hm := minById_mem h
  have hf := List.mem_filter.mp hm
  exact ⟨hf.1, by simpa using hf.2⟩

theorem selectPending_min {cs : List TestCase} {t : TestCase}
    (h : selectPending cs = some t) :
    ∀ u ∈ cs, u.status = "pending" → t.id ≤ u.id := by
  intro u hu hp
  exact minById_le h u (List.mem_filter.mpr ⟨hu, by simp [hp]⟩)

theorem selectPending_none {cs : List TestCase} (h : selectPending cs = none) :
    ∀ u ∈ cs, u.status ≠ "pending" := by
  intro u hu hp
  have hnil : cs.filter (fun t => t.status == "pending") = [] :=
    minById_eq_none h
  have hmem : u ∈ cs.filter (fun t => t.status == "pending") :=
    List.mem_filter.mpr ⟨hu, by simp [hp]⟩
  rw [hnil] at hmem
  cases hmem

theorem runningExecsFor_mark (db : DB) (tid : Nat) (eid nid : String) (now : Nat)
    (x : Nat) :
    runningExecsFor (markRunningAndRecord db tid eid nid now) x =
      runningExecsFor db x + (if tid == x then 1 else 0) := by
  simp only [runningExecsFor, markRunningAndRecord, List.filter_append,
    List.length_append]
  cases h : (tid == x) <;> simp [h]

theorem pending_has_no_running {db : DB} {t : TestCase}
    (h2 : pendingUnclaimedOK db = true) (htmem : t ∈ db.test_cases)
    (htpend : t.status = "pending") : runningExecsFor db t.id = 0 := by
  have h := List.all_eq_true.mp h2 t htmem
  simpa [htpend] using h

theorem markRunning_preserves (db : DB) (t : TestCase) (eid nid : String)
    (now : Nat) (htmem : t ∈ db.test_cases) (htpend : t.status = "pending")
    (h1 : mutexOK db = true) (h2 : pendingUnclaimedOK db = true) :
    mutexOK (markRunningAndRecord db t.id eid nid now) = true ∧
    pendingUnclaimedOK (markRunningAndRecord db t.id eid nid now) = true := by
  have ht0 : runningExecsFor db t.id = 0 := pending_has_no_running h2 htmem htpend
  constructor
  · apply List.all_eq_true.mpr
    intro e he
    simp only [decide_eq_true_eq]
    rw [runningExecsFor_mark]
    have he' : e ∈ db.test_executions ∨
        e = (⟨eid, t.id, nid, "running", now, none, none⟩ : Execution) := by
      simpa [markRunningAndRecord] using he
    by_cases hx : t.id = e.test_id
    · rw [← hx, ht0]
      simp
    · have hxf : (t.id == e.test_id) = false := by simpa using hx
      have hz : (if (t.id == e.test_id) = true then 1 else 0) = 0 := by simp [hxf]
      rw [hz, Nat.add_zero]
      rcases he' with hold | hnew
      · have := List.all_eq_true.mp h1 e hold
        simpa using this
      · exact absurd (by rw [hnew]) hx
  · apply List.all_eq_true.mpr
    intro t' ht'
    simp only [markRunningAndRecord, List.mem_map] at ht'
    obtain ⟨u, hu, rfl⟩ := ht'
    by_cases hid : u.id = t.id
    · simp [hid]
    · have hidf : (u.id == t.id) = false := by simpa using hid
      simp only [hidf, if_false]
      by_cases hup : u.status = "pending"
      · have hu0 : runningExecsFor db u.id = 0 :=
          pending_has_no_running h2 hu hup
        have hsym : (t.id == u.id) = false := by
          simpa using Ne.symm hid
        have := runningExecsFor_mark db t.id eid nid now u.id
        simp only [hsym, if_false] at this
        simp [this, hu0]
      · simp [hup]

theorem next_test_preserves (db : DB) (nid eid : String) (now : Nat)
    (h1 : mutexOK db = true) (h2 : pendingUnclaimedOK db = true) :
    mutexOK (next_test db nid eid now).1 = true ∧
    pendingUnclaimedOK (next_test db nid eid now).1 = true := by
  cases hsel : selectPending db.test_cases with
  | none => simp [next_test, hsel, h1, h2]
  | some t =>
      obtain ⟨htmem, htpend⟩ := selectPending_mem hsel
      simp only [next_test, hsel]
      exact markRunning_preserves db t eid nid now htmem htpend h1 h2

theorem insertAll_spec (ps : List ParsedTest) : ∀ (db : DB) (i : Nat),
    (insertAll db i ps).test_cases = db.test_cases ++ builtRows i ps ∧
    (insertAll db i ps).test_executions = db.test_executions := by
  induction ps with
  | nil => intro db i; simp [insertAll, builtRows]
  | cons p ps ih =>
      intro db i
      have h := ih
        { db with test_cases :=
            db.test_cases ++ [⟨i, p.test_name, p.suite_name, p.file_path, "pending"⟩] }
        (i + 1)
      simpa [insertAll, builtRows, List.append_assoc] using h

theorem forall2_map_pending (l : List TestCase) :
    List.Forall₂
      (fun t' t => t'.id = t.id ∧ t'.test_name = t.test_name ∧
        t'.suite_name = t.suite_name ∧ t'.file_path = t.file_path ∧
        t'.status = "pending")
      (l.map (fun t => { t with status := "pending" })) l := by
  induction l with
  | nil => exact List.Forall₂.nil
  | cons a l ih => exact List.Forall₂.cons ⟨rfl, rfl, rfl, rfl, rfl⟩ ih

/-! Claim theorems. -/

/-- C1, counterexample.  The claim asserts that the
select-pending-then-mark-running-then-insert-execution step of `next_test`
executes as a single atomic unit, so that no item is ever returned to two
callers with both execution attempts Active.  Interleaving the two SQL units
of two concurrent handlers over a one-item catalog (both SELECT first, then
both write and commit) makes both callers receive item 1 and leaves two
simultaneously running execution records for it. -/
theorem C1_counterexample_interleaved_double_claim :
    (runTwo ⟨dbOnePending, callerA, callerB⟩ [true, false, true, false] 7).a.phase
      = ClaimPhase.finished (.assigned ⟨"exeA", 1, "t1", "s1", "f1"⟩) ∧
    (runTwo ⟨dbOnePending, callerA, callerB⟩ [true, false, true, false] 7).b.phase
      = ClaimPhase.finished (.assigned ⟨"exeB", 1, "t1", "s1", "f1"⟩) ∧
    runningExecsFor (runTwo ⟨dbOnePending, callerA, callerB⟩ [true, false, true, false] 7).db 1 = 2 ∧
    mutexOK (runTwo ⟨dbOnePending, callerA, callerB⟩ [true, false, true, false] 7).db = false := by
  decide

/-- C1, amended.  When each `/api/next_test` handler runs to completion
before the next starts (as under the single-threaded development server),
any sequence of claim calls preserves mutual exclusion: starting from a
store where no item has two running execution records and no pending item
has a running one, at most one Active execution record exists per
`test_cases` row after every call. -/
theorem C1_amended_serialized_mutex (db : DB) (calls : List (String × String × Nat))
    (h1 : mutexOK db = true) (h2 : pendingUnclaimedOK db = true) :
    mutexOK (runClaims db calls) = true := by
  induction calls generalizing db with
  | nil => simpa [runClaims] using h1
  | cons c rest ih =>
      obtain ⟨nid, eid, now⟩ := c
      have h := next_test_preserves db nid eid now h1 h2
      simpa [runClaims] using ih _ h.1 h.2

/-- C1, witness for the amended theorem: three serialized claims on a
two-item catalog (the third finds no work) keep the mutual-exclusion
check true. -/
theorem C1_amended_witness :
    mutexOK dbTwoPending = true ∧ pendingUnclaimedOK dbTwoPending = true ∧
    mutexOK (runClaims dbTwoPending [("wA", "eA", 0), ("wB", "eB", 1), ("wC", "eC", 2)]) = true :=
  ⟨by decide, by decide,
   C1_amended_serialized_mutex dbTwoPending [("wA", "eA", 0), ("wB", "eB", 1), ("wC", "eC", 2)]
     (by decide) (by decide)⟩

/-- C2, counterexample.  The claim asserts that `update_test` fails with
NotFound whenever the attempt is not currently Active, in particular for an
already-finalized attempt, causing no state change.  On a store whose only
attempt is finalized (nothing is Active), a repeated call for it does not
answer 404 and does change the store. -/
theorem C2_counterexample_finalized_update_succeeds :
    anyActiveExecution dbFinalized = false ∧
    (update_test dbFinalized "e1" "failed" (some "late") 9).2 ≠ UpdateResult.notFound ∧
    updateHttpCode (update_test dbFinalized "e1" "failed" (some "late") 9).2 = 200 ∧
    (update_test dbFinalized "e1" "failed" (some "late") 9).1 ≠ dbFinalized := by
  decide

/-- C2, amended.  `update_test` answers 404 exactly when the given
`execution_id` matches no row of `test_executions`; whenever a row exists,
Active or long finalized, the call answers 200 with the update applied
again. -/
theorem C2_amended_notFound_iff_unknown_id (db : DB) (eid st : String)
    (r : Option String) (now : Nat) :
    ((update_test db eid st r now).2 = UpdateResult.notFound ↔
      db.test_executions.find? (fun e => e.execution_id == eid) = none) ∧
    ∀ e, db.test_executions.find? (fun e => e.execution_id == eid) = some e →
      (update_test db eid st r now).2 = UpdateResult.ok e.test_id := by
  cases hf : db.test_executions.find? (fun e => e.execution_id == eid) with
  | none => simp [update_test, hf]
  | some row => simp [update_test, hf]

/-- C2, witness for the amended theorem, at the finalized store: the lookup
succeeds, so the repeated update answers ok rather than 404. -/
theorem C2_amended_witness :
    (dbFinalized.test_executions.find? (fun e => e.execution_id == "e1") = some execFinalized) ∧
    (((update_test dbFinalized "e1" "failed" (some "late") 9).2 = UpdateResult.notFound ↔
        dbFinalized.test_executions.find? (fun e => e.execution_id == "e1") = none) ∧
      ∀ e, dbFinalized.test_executions.find? (fun e => e.execution_id == "e1") = some e →
        (update_test dbFinalized "e1" "failed" (some "late") 9).2 = UpdateResult.ok e.test_id) :=
  ⟨by decide, C2_amended_notFound_iff_unknown_id dbFinalized "e1" "failed" (some "late") 9⟩

/-- C3, code bug.  The claim (and the specification) requires lease-based
reclaim: an Active attempt older than the lease with no terminal report must
be failed and its item returned to Pending within one reclaim cycle.  The
code has no such path: on a store whose only item was claimed at time 0 and
is still running unreported, a claim arriving at any later time leaves the
store byte-for-byte unchanged and answers that no tests are available, so
the item is never claimable again. -/
theorem C3_code_bug_no_reclaim :
    (∀ now : Nat, next_test dbStale "workerB" "eNew" now = (dbStale, NextTestResult.noTests)) ∧
    countStatus dbStale "pending" = 0 ∧
    runningExecsFor dbStale 1 = 1 := by
  refine ⟨fun now => rfl, by decide, by decide⟩

/-- C4, counterexample.  The claim asserts the monitor invokes merge only
upon observing Pending = 0 and Claimed = 0 over the work items.  The actual
trigger compares the `test_cases` count with the count of finished
`test_executions` rows: on a store where one item was executed twice and a
second item is still pending, the trigger fires on the very first tick even
though one item is pending. -/
theorem C4_counterexample_merge_despite_pending :
    (get_test_status dbSkew).all_completed = true ∧
    countStatus dbSkew "pending" = 1 ∧
    countStatus dbSkew "running" = 0 ∧
    monitorMergeCount [dbSkew] = 1 := by
  decide

/-- C4, amended.  Over any finite sequence of fresh snapshots the monitor
invokes merge at most once, and exactly once precisely when some snapshot
satisfies the implemented terminal condition, namely that the number of
finished execution records equals the number of test cases (a condition that
can hold while items are still pending). -/
theorem C4_amended_merge_at_most_once (snaps : List DB) :
    monitorMergeCount snaps ≤ 1 ∧
    (monitorMergeCount snaps = 1 ↔
      ∃ db ∈ snaps, (get_test_status db).all_completed = true) := by
  induction snaps with
  | nil => simp [monitorMergeCount]
  | cons db rest ih =>
      cases h : (get_test_status db).all_completed with
      | true => simp [monitorMergeCount, h]
      | false => simp [monitorMergeCount, h, ih.1, ih.2]

/-- C4, witness for the amended theorem on a two-tick snapshot sequence. -/
theorem C4_amended_witness :
    monitorMergeCount [dbSkew, dbSkew] = 1 ∧
    (monitorMergeCount [dbSkew, dbSkew] ≤ 1 ∧
      (monitorMergeCount [dbSkew, dbSkew] = 1 ↔
        ∃ db ∈ [dbSkew, dbSkew], (get_test_status db).all_completed = true)) :=
  ⟨by decide, C4_amended_merge_at_most_once [dbSkew, dbSkew]⟩

/-- C5, counterexample.  The claim asserts that when the bounded retries of
the claim request are exhausted, the worker loop is treated as failed, a
fatal error surfaced to the operator.  After three transport exceptions
`get_next_test` returns the Python None with sleeps 1 and 2 performed, and
`main` ends in exactly the same successful state as a clean
no-work-remaining run: the loop breaks, "Test runner completed" is printed,
and the process exits normally with zero tests run. -/
theorem C5_counterexample_exhaustion_reports_success :
    get_next_test allNetExn = (FetchResult.nothing, [1, 2]) ∧
    workerLoop [allNetExn] 0 = WorkerExit.done 0 ∧
    workerLoop [immediateNoWork] 0 = WorkerExit.done 0 := by
  decide

/-- C5, amended.  On transient coordinator errors (transport exceptions or
500 responses carrying "Database error") the worker retries with delays that
start at 1 second and double, for at most `max_retries = 3` attempts; when
the retries are exhausted `get_next_test` returns None, which the main loop
treats exactly like no-work-available, ending the worker successfully rather
than surfacing a fatal error. -/
theorem C5_amended_backoff_bounded_swallowed (f : Nat → ApiResp)
    (h : ∀ i, f i = ApiResp.netExn ∨ f i = ApiResp.dbError) :
    (get_next_test f).1 = FetchResult.nothing ∧
    ((get_next_test f).2 = [1, 2] ∨ (get_next_test f).2 = [1, 2, 4]) ∧
    workerLoop [f] 0 = WorkerExit.done 0 := by
  rcases h 0 with h0 | h0 <;> rcases h 1 with h1 | h1 <;> rcases h 2 with h2 | h2 <;>
    simp [get_next_test, getNextTestGo, workerLoop, h0, h1, h2]

/-- C5, witness for the amended theorem at the all-exception coordinator. -/
theorem C5_amended_witness :
    (get_next_test allNetExn).1 = FetchResult.nothing ∧
    ((get_next_test allNetExn).2 = [1, 2] ∨ (get_next_test allNetExn).2 = [1, 2, 4]) ∧
    workerLoop [allNetExn] 0 = WorkerExit.done 0 :=
  C5_amended_backoff_bounded_swallowed allNetExn (fun _ => Or.inl rfl)

/-- C6, confirmed.  `next_test` selects the pending work item with the
lowest id (identity being the only order), and when no item is pending it
answers 404 no-tests-available instead of a work item. -/
theorem C6_lowest_pending_or_404 (db : DB) (nid eid : String) (now : Nat) :
    match (next_test db nid eid now).2 with
    | NextTestResult.assigned d =>
        nextTestHttpCode (next_test db nid eid now).2 = 200 ∧
        ∃ t ∈ db.test_cases, t.status = "pending" ∧ t.id = d.test_id ∧
          t.test_name = d.test_name ∧ t.suite_name = d.suite_name ∧
          t.file_path = d.file_path ∧
          ∀ u ∈ db.test_cases, u.status = "pending" → t.id ≤ u.id
    | NextTestResult.noTests =>
        nextTestHttpCode (next_test db nid eid now).2 = 404 ∧
        ∀ u ∈ db.test_cases, u.status ≠ "pending" := by
  cases hsel : selectPending db.test_cases with
  | none =>
      simp only [next_test, hsel]
      exact ⟨rfl, selectPending_none hsel⟩
  | some t =>
      obtain ⟨hm, hp⟩ := selectPending_mem hsel
      simp only [next_test, hsel]
      exact ⟨rfl, t, hm, hp, rfl, rfl, rfl, rfl, selectPending_min hsel⟩

/-- C6, witness: on a catalog listing ids 2 and 1 out of order, item 1
("alpha") is the one assigned. -/
theorem C6_witness :
    (next_test dbTwoPending "node" "exe" 0).2 =
      NextTestResult.assigned ⟨"exe", 1, "alpha", "s1", "f1"⟩ ∧
    (match (next_test dbTwoPending "node" "exe" 0).2 with
     | NextTestResult.assigned d =>
         nextTestHttpCode (next_test dbTwoPending "node" "exe" 0).2 = 200 ∧
         ∃ t ∈ dbTwoPending.test_cases, t.status = "pending" ∧ t.id = d.test_id ∧
           t.test_name = d.test_name ∧ t.suite_name = d.suite_name ∧
           t.file_path = d.file_path ∧
           ∀ u ∈ dbTwoPending.test_cases, u.status = "pending" → t.id ≤ u.id
     | NextTestResult.noTests =>
         nextTestHttpCode (next_test dbTwoPending "node" "exe" 0).2 = 404 ∧
         ∀ u ∈ dbTwoPending.test_cases, u.status ≠ "pending") :=
  ⟨by decide, C6_lowest_pending_or_404 dbTwoPending "node" "exe" 0⟩

/-- C7, counterexample.  The claim asserts that seeding fails with
AlreadyRunningError, performing no replacement, whenever an execution
attempt is Active.  `store_in_database` has no such check: on a store with a
running attempt it still empties `test_cases` and installs the new catalog,
with no error of any kind. -/
theorem C7_counterexample_seed_during_active :
    anyActiveExecution dbActiveClaim = true ∧
    store_in_database dbActiveClaim newCatalog 2 ≠ dbActiveClaim ∧
    (store_in_database dbActiveClaim newCatalog 2).test_cases =
      [⟨2, "new1", "s2", "g1", "pending"⟩, ⟨3, "new2", "s2", "g2", "pending"⟩] := by
  decide

/-- C7, amended.  `store_in_database` replaces the catalog wholesale
unconditionally: whatever the store holds, even with Active execution
attempts, the old `test_cases` rows are deleted and exactly the freshly
parsed rows installed, while `test_executions` is untouched; no
AlreadyRunningError exists. -/
theorem C7_amended_unconditional_replacement (db : DB) (tests : List ParsedTest)
    (firstId : Nat) :
    (store_in_database db tests firstId).test_cases = builtRows firstId tests ∧
    (store_in_database db tests firstId).test_executions = db.test_executions := by
  have h := insertAll_spec tests { db with test_cases := [] } firstId
  simpa [store_in_database] using h

/-- C8, confirmed.  `reset_tests` (and the identical statement of
`reset_test_statuses`) reports touching every row, rewrites each work item
to Pending keeping its identity, name, suite and location, and leaves the
`test_executions` history list identical: no execution row is deleted or
modified. -/
theorem C8_reset_pending_preserves_history (db : DB) :
    (reset_tests db).1.test_executions = db.test_executions ∧
    (reset_tests db).2 = db.test_cases.length ∧
    List.Forall₂
      (fun t' t => t'.id = t.id ∧ t'.test_name = t.test_name ∧
        t'.suite_name = t.suite_name ∧ t'.file_path = t.file_path ∧
        t'.status = "pending")
      (reset_tests db).1.test_cases db.test_cases :=
  ⟨rfl, rfl, forall2_map_pending db.test_cases⟩

/-- C9, confirmed (implicit claim).  Whenever the given `execution_id`
matches a row of `test_executions`, `update_test` answers 200 and writes the
caller-supplied status string verbatim, whatever it is, into the matching
execution row (with the finish time and result) and into the owning
`test_cases` row; nothing constrains the string to the status set or checks
the current state, so one call can move an already-terminal item to any
status, including back to pending. -/
theorem C9_update_verbatim_no_validation (db : DB) (eid st : String)
    (r : Option String) (now : Nat) (e : Execution)
    (h : db.test_executions.find? (fun x => x.execution_id == eid) = some e) :
    (update_test db eid st r now).2 = UpdateResult.ok e.test_id ∧
    updateHttpCode (update_test db eid st r now).2 = 200 ∧
    (∀ x ∈ (update_test db eid st r now).1.test_executions,
        x.execution_id = eid → x.status = st ∧ x.end_time = some now ∧ x.result = r) ∧
    (∀ t ∈ (update_test db eid st r now).1.test_cases,
        t.id = e.test_id → t.status = st) := by
  have hrw : update_test db eid st r now =
      ({ test_cases := db.test_cases.map
           (fun t => if t.id == e.test_id then { t with status := st } else t),
         test_executions := db.test_executions.map
           (fun x => if x.execution_id == eid then
              { x with status := st, end_time := some now, result := r }
            else x) },
       UpdateResult.ok e.test_id) := by
    simp [update_test, h]
  rw [hrw]
  refine ⟨rfl, rfl, ?_, ?_⟩
  · intro x hx hxe
    simp only [List.mem_map] at hx
    obtain ⟨y, hy, rfl⟩ := hx
    by_cases hc : (y.execution_id == eid) = true
    · simp [hc]
    · rw [Bool.not_eq_true] at hc
      simp [hc] at hxe
      exact absurd hxe (by simpa using hc)
  · intro t ht hte
    simp only [List.mem_map] at ht
    obtain ⟨y, hy, rfl⟩ := ht
    by_cases hc : (y.id == e.test_id) = true
    · simp [hc]
    · rw [Bool.not_eq_true] at hc
      simp [hc] at hte
      exact absurd hte (by simpa using hc)

/-- C9, witness: on the finalized store, posting status "pending" for the
finalized attempt e1 answers 200 and moves the completed item back to
pending. -/
theorem C9_witness :
    ((update_test dbFinalized "e1" "pending" none 9).1.test_cases =
        [⟨1, "t1", "s1", "f1", "pending"⟩] ∧
     dbFinalized.test_executions.find? (fun x => x.execution_id == "e1") = some execFinalized) ∧
    ((update_test dbFinalized "e1" "pending" none 9).2 = UpdateResult.ok execFinalized.test_id ∧
     updateHttpCode (update_test dbFinalized "e1" "pending" none 9).2 = 200 ∧
     (∀ x ∈ (update_test dbFinalized "e1" "pending" none 9).1.test_executions,
         x.execution_id = "e1" → x.status = "pending" ∧ x.end_time = some 9 ∧ x.result = none) ∧
     (∀ t ∈ (update_test dbFinalized "e1" "pending" none 9).1.test_cases,
         t.id = execFinalized.test_id → t.status = "pending")) :=
  ⟨⟨by decide, by decide⟩,
   C9_update_verbatim_no_validation dbFinalized "e1" "pending" none 9 execFinalized (by decide)⟩

/-- C10, confirmed (implicit claim).  When the given `execution_id` matches
no row of `test_executions`, `update_test` answers 404 and returns the store
exactly as it was: neither table is modified on this error path. -/
theorem C10_unknown_execution_404_unchanged (db : DB) (eid st : String)
    (r : Option String) (now : Nat)
    (h : db.test_executions.find? (fun e => e.execution_id == eid) = none) :
    update_test db eid st r now = (db, UpdateResult.notFound) ∧
    updateHttpCode (update_test db eid st r now).2 = 404 := by
  simp [update_test, updateHttpCode, h]

/-- C10, witness: an unknown execution id against the finalized store. -/
theorem C10_witness :
    (dbFinalized.test_executions.find? (fun e => e.execution_id == "zz") = none) ∧
    (update_test dbFinalized "zz" "failed" none 9 = (dbFinalized, UpdateResult.notFound) ∧
     updateHttpCode (update_test dbFinalized "zz" "failed" none 9).2 = 404) :=
  ⟨by decide, C10_unknown_execution_404_unchanged dbFinalized "zz" "failed" none 9 (by decide)⟩
